import Mathlib

/-!
Verification of the resource-management core of the Impala backend
(`be/src/runtime/mem-tracker.cc`, `be/src/runtime/query-state.cc`,
and the temporary-file manager exercised by
`be/src/runtime/tmp-file-mgr-test.cc`).

The definitions below are shallow embeddings of the C++ source.
Machine integers (`int64_t`) are modelled as `Int`; the quantities
involved (byte counts, limits) are far from the 2^63 boundary in every
scenario considered, and the source itself treats them as mathematical
integers (no intentional wraparound).  Fallible operations return
`Option`; undefined behaviour (erasing an end iterator) is modelled as
`none`.  Where the implementation file is not among the provided
sources (the temporary-file manager), the definition is modelled from
the spec, as indicated in its doc comment.
-/

namespace Impala

/-! ## MemTracker::GcMemory (mem-tracker.cc, lines 314-334)

A tracker, for the purposes of `GcMemory`, is its consumption counter
together with the registered reclamation callbacks (`gc_functions_`).
Each callback mutates external state whose net effect on the tracker is
some new consumption value; we model a callback as the function taking
the consumption before the call to the consumption after it.  The model
covers trackers with `consumption_metric_ == NULL` (every tracker other
than the process root), so the metric-refresh lines are no-ops. -/

structure GcTracker where
  consumption : Int
  gc_functions : List (Int → Int)

/-- The `for` loop of `GcMemory`: invoke each callback in order,
breaking as soon as consumption has dropped to `max_consumption` or
below.  Returns the consumption after the loop. -/
def runGcFunctions : List (Int → Int) → Int → Int → Int
  | [], c, _ => c
  | f :: fs, c, maxC =>
    let c2 := f c
    if c2 ≤ maxC then c2 else runGcFunctions fs c2 maxC

/-- `MemTracker::GcMemory(max_consumption)`: returns the `bool` result
together with the tracker after the call.  Mirrors the source: an early
`return true` for negative targets, an early `return false` when a
concurrent GC already brought consumption strictly below the target,
otherwise the callback loop followed by `return consumption() >
max_consumption`. -/
def GcMemory (t : GcTracker) (max_consumption : Int) : Bool × GcTracker :=
  if max_consumption < 0 then (true, t)
  else if t.consumption < max_consumption then (false, t)
  else
    let c := runGcFunctions t.gc_functions t.consumption max_consumption
    (decide (c > max_consumption), { t with consumption := c })

/-! ## MemTracker::Init (mem-tracker.cc, lines 103-114)

A tracker's ancestry is the data `Init` walks: its own limit and its
chain of parents.  `limit_ == -1` means unlimited (`DCHECK_GE(limit_,
-1)`), so `has_limit()` holds exactly when the limit is non-negative. -/

inductive MemTrackerNode where
  | root (limit : Int)
  | child (limit : Int) (parent : MemTrackerNode)

def MemTrackerNode.limit : MemTrackerNode → Int
  | .root l => l
  | .child l _ => l

def MemTrackerNode.hasLimit (t : MemTrackerNode) : Bool := decide (0 ≤ t.limit)

/-- The `while` loop of `MemTracker::Init`: walk from the tracker to the
root, appending every tracker to `all_trackers_` and every tracker with
a finite limit to `limit_trackers_`.  Returns the pair
`(all_trackers_, limit_trackers_)`. -/
def memTrackerInit : MemTrackerNode → List MemTrackerNode × List MemTrackerNode
  | .root l =>
    ([.root l], if (MemTrackerNode.root l).hasLimit then [.root l] else [])
  | .child l p =>
    let rest := memTrackerInit p
    (.child l p :: rest.1,
      (if (MemTrackerNode.child l p).hasLimit then [.child l p] else []) ++ rest.2)

/-- The spec's "ancestor chain": the tracker itself followed by its
parent, grandparent, ..., nearest-first. -/
def ancestorChain : MemTrackerNode → List MemTrackerNode
  | .root l => [.root l]
  | .child l p => .child l p :: ancestorChain p

/-! ## MemTracker::UnregisterFromParent and QueryState::ReleaseResources
(mem-tracker.cc lines 121-126, query-state.cc lines 58-62)

The parent's `child_trackers_` is a `std::list`; the child holds the
iterator returned by `insert`.  We model the list as `List Nat` (child
identities), the iterator as an `Option Nat` index where `none` is the
end iterator, and `std::list::erase` applied to the end iterator —
undefined behaviour — as `none` (failure). -/

structure QueryStateRes where
  parent_child_trackers : List Nat
  child_tracker_it : Option Nat
  released_resources : Bool
  deriving DecidableEq, Repr

/-- `MemTracker::UnregisterFromParent`: erase `child_tracker_it_` from
the parent's child list and set the iterator to `end()`.  Erasing an
iterator that is already `end()` is undefined behaviour, modelled as
`none`. -/
def UnregisterFromParent (qs : QueryStateRes) : Option QueryStateRes :=
  match qs.child_tracker_it with
  | none => none
  | some i =>
    if i < qs.parent_child_trackers.length then
      some { qs with parent_child_trackers := qs.parent_child_trackers.eraseIdx i,
                     child_tracker_it := none }
    else none

/-- `QueryState::ReleaseResources`: unregister the query tracker from
its parent, then set `released_resources_`. -/
def ReleaseResources (qs : QueryStateRes) : Option QueryStateRes :=
  (UnregisterFromParent qs).map (fun s => { s with released_resources := true })

/-! ## QueryState::Prepare (query-state.cc, lines 68-93) -/

inductive Status where
  | ok
  | memLimitExceeded (msg : String)
  deriving DecidableEq, Repr

def Status.isOk : Status → Bool
  | .ok => true
  | _ => false

structure QueryStatePrep where
  query_id : Nat
  prepared : Bool
  prepare_status : Status
  deriving DecidableEq, Repr

/-- `QueryState::Prepare`: under `prepare_lock_`, return `OK` if already
prepared, replay a cached failure, otherwise run the admission check
against the process tracker (whether it is currently over its limit is
the `process_limit_exceeded` input), caching the failure or marking the
state prepared. -/
def QueryStatePrep.Prepare (qs : QueryStatePrep) (process_limit_exceeded : Bool) :
    Status × QueryStatePrep :=
  if qs.prepared then (.ok, qs)
  else if ¬ qs.prepare_status.isOk then (qs.prepare_status, qs)
  else if process_limit_exceeded then
    let s := Status.memLimitExceeded ("Query " ++ toString qs.query_id ++
      " could not start because the backend Impala daemon is over its memory limit")
    (s, { qs with prepare_status := s })
  else (.ok, { qs with prepared := true })

/-! ## The query-id interning registry
(mem-tracker.cc: GetQueryMemTracker lines 175-208, destructor lines
210-219)

Query ids (`TUniqueId`) are modelled as `Nat`.  A tracker instance is
identified by a fresh `tracker_id` drawn from a counter, so "same
instance" is equality of `tracker_id`.  The registry
`request_to_mem_trackers_` maps a query id to the (weakly referenced)
instance; in this sequential model the destructor removes the entry, so
every entry present is alive. -/

structure QTracker where
  tracker_id : Nat
  limit : Int
  query_id : Nat
  deriving DecidableEq, Repr

structure QueryRegistry where
  request_to_mem_trackers : List (Nat × QTracker)
  next_tracker_id : Nat
  deriving DecidableEq, Repr

def lookupQuery (st : QueryRegistry) (id : Nat) : Option QTracker :=
  (st.request_to_mem_trackers.find? (fun e => e.1 == id)).map Prod.snd

/-- `MemTracker::GetQueryMemTracker(id, byte_limit, parent)`: logs a
warning (the `Bool` component) when a finite `byte_limit` exceeds
physical memory, then returns the registered tracker for `id` if one is
alive, otherwise constructs a tracker whose limit is `byte_limit`
itself and registers it. -/
def GetQueryMemTracker (physical_mem : Int) (st : QueryRegistry) (id : Nat)
    (byte_limit : Int) : Bool × QTracker × QueryRegistry :=
  let warned := decide (byte_limit ≠ -1) && decide (byte_limit > physical_mem)
  match lookupQuery st id with
  | some t => (warned, t, st)
  | none =>
    let t : QTracker := ⟨st.next_tracker_id, byte_limit, id⟩
    (warned, t, ⟨(id, t) :: st.request_to_mem_trackers, st.next_tracker_id + 1⟩)

/-- `MemTracker::~MemTracker`, restricted to its effect on
`request_to_mem_trackers_`: erase the entry for the tracker's
`query_id_`. -/
def MemTrackerDtor (st : QueryRegistry) (t : QTracker) : QueryRegistry :=
  ⟨st.request_to_mem_trackers.filter (fun e => !(e.1 == t.query_id)),
    st.next_tracker_id⟩

/-! ## The pool-name interning registry
(mem-tracker.cc: GetRequestPoolMemTracker, lines 154-173) -/

structure PoolRegistry where
  pool_to_mem_trackers : List (String × Nat)
  next_tracker_id : Nat
  deriving DecidableEq, Repr

def lookupPool (st : PoolRegistry) (pool_name : String) : Option Nat :=
  (st.pool_to_mem_trackers.find? (fun e => e.1 == pool_name)).map Prod.snd

/-- `MemTracker::GetRequestPoolMemTracker(pool_name, parent)`: return
the registered tracker if present; otherwise return null when `parent`
is null, and construct-and-register a new pool tracker when `parent` is
non-null. -/
def GetRequestPoolMemTracker (st : PoolRegistry) (pool_name : String)
    (parent : Option Nat) : Option Nat × PoolRegistry :=
  match lookupPool st pool_name with
  | some t => (some t, st)
  | none =>
    match parent with
    | none => (none, st)
    | some _ =>
      (some st.next_tracker_id,
        ⟨(pool_name, st.next_tracker_id) :: st.pool_to_mem_trackers,
          st.next_tracker_id + 1⟩)

/-! ## The temporary-file manager

The implementation file `tmp-file-mgr.cc` (and its header) is not among
the provided sources; only its test, `tmp-file-mgr-test.cc`, is.  The
definitions in this section are therefore modelled from the spec
(sections 3 "TmpFile"/"TmpFileGroup" and 4.2/4.3), as their doc
comments state, and are exercised against the concrete expectations of
`TmpFileMgrTest`. -/

/-- Modelled from the spec: a `TmpFileMgr::File` (`tmp-file-mgr.cc` is
missing from the sources).  Attributes per spec section 3: owning
device id, current allocated-high-water byte offset (`bytes_allocated`),
the resulting on-disk size, a blacklist flag (blacklisting is disabled
in the baseline policy and never set), and the per-file error flag set
by `ReportIOError`. -/
structure TmpFile where
  device_id : Nat
  bytes_allocated : Int
  disk_size : Int
  blacklisted : Bool
  reported_error : Bool
  deriving DecidableEq, Repr

/-- Modelled from the spec: `TmpFile::AllocateSpace(num_bytes)` returns
`offset = current_high_water_mark`, extends the file on disk to
`offset + num_bytes`, and advances the mark; a blacklisted file cannot
allocate (file-level errors alone never blacklist). -/
def TmpFile.AllocateSpace (f : TmpFile) (num_bytes : Int) : Option (Int × TmpFile) :=
  if f.blacklisted then none
  else some (f.bytes_allocated,
    { f with bytes_allocated := f.bytes_allocated + num_bytes,
             disk_size := f.bytes_allocated + num_bytes })

/-- Modelled from the spec: `TmpFile::ReportIOError(msg)` records the
(first) error on the file — and nothing else: it neither blacklists the
file nor touches the device set. -/
def TmpFile.ReportIOError (f : TmpFile) : TmpFile :=
  { f with reported_error := true }

/-- A freshly created file on `device_id`: nothing allocated, no error,
not blacklisted. -/
def newTmpFile (device_id : Nat) : TmpFile := ⟨device_id, 0, 0, false, false⟩

/-- Modelled from the spec: the process-wide `TmpFileMgr`, reduced to
its set of active scratch devices. -/
structure TmpFileMgr where
  active_tmp_devices : List Nat
  deriving DecidableEq, Repr

def TmpFileMgr.num_active_tmp_devices (m : TmpFileMgr) : Nat :=
  m.active_tmp_devices.length

/-- Modelled from the spec: `FileGroup::NewFile(device_id, query_id)`
creates a fresh `TmpFile` on the given device (lazily, without touching
disk); it fails only if the device is not active. -/
def TmpFileMgr.NewFile (m : TmpFileMgr) (device_id : Nat) : Option TmpFile :=
  if device_id ∈ m.active_tmp_devices then some (newTmpFile device_id) else none

/-- Modelled from the spec: reporting an I/O error on one file within
the process: the manager itself is untouched, only the file's flag is
set. -/
def reportIOErrorOnFile (m : TmpFileMgr) (f : TmpFile) : TmpFileMgr × TmpFile :=
  (m, f.ReportIOError)

/-- Result of `FileGroup::AllocateSpace`: success carries the index of
the chosen file and the offset within it; failure kinds follow spec
section 7. -/
inductive AllocStatus where
  | ok (file_index : Nat) (offset : Int)
  | scratchLimitExceeded
  | ioError
  deriving DecidableEq, Repr

/-- Modelled from the spec: a `TmpFileMgr::FileGroup` — an aggregate
byte limit (`-1` means unlimited), the group's files, the round-robin
selection pointer, and the shared counter of bytes allocated
group-wide. -/
structure FileGroup where
  bytes_limit : Int
  tmp_files : List TmpFile
  next_allocation_index : Nat
  scratch_space_bytes_used : Int
  deriving DecidableEq, Repr

/-- Modelled from the spec: `FileGroup::AllocateSpace(num_bytes)`
selects the next file in round-robin order (advancing the pointer
unconditionally for fairness), fails fast with `ScratchLimitExceeded`
— before touching any file — when a configured aggregate limit would be
exceeded, otherwise allocates on the selected file and only then
increments the group-wide counter. -/
def FileGroup.AllocateSpace (g : FileGroup) (num_bytes : Int) :
    AllocStatus × FileGroup :=
  if g.tmp_files.length = 0 then (.ioError, g)
  else
    let idx := g.next_allocation_index % g.tmp_files.length
    let g1 := { g with
      next_allocation_index := (g.next_allocation_index + 1) % g.tmp_files.length }
    if g.bytes_limit ≠ -1 ∧
        g.scratch_space_bytes_used + num_bytes > g.bytes_limit then
      (.scratchLimitExceeded, g1)
    else
      match (g.tmp_files.getD idx (newTmpFile 0)).AllocateSpace num_bytes with
      | none => (.ioError, g1)
      | some (off, f2) =>
        (.ok idx off,
          { g1 with tmp_files := g.tmp_files.set idx f2,
                    scratch_space_bytes_used :=
                      g.scratch_space_bytes_used + num_bytes })

/-- Run a sequence of group allocation requests, returning the final
group state. -/
def runGroupAllocs : FileGroup → List Int → FileGroup
  | g, [] => g
  | g, n :: ns => runGroupAllocs (g.AllocateSpace n).2 ns

/-- The total size of the requests in a sequence that succeed. -/
def allocatedBytes : FileGroup → List Int → Int
  | _, [] => 0
  | g, n :: ns =>
    match g.AllocateSpace n with
    | (.ok _ _, g2) => n + allocatedBytes g2 ns
    | (_, g2) => allocatedBytes g2 ns

/-- Run a sequence of per-file allocation requests on one file,
returning the offsets handed out and the final file. -/
def runFileAllocs : TmpFile → List Int → List Int × TmpFile
  | f, [] => ([], f)
  | f, n :: ns =>
    match f.AllocateSpace n with
    | none => ([], f)
    | some (off, f2) =>
      let rest := runFileAllocs f2 ns
      (off :: rest.1, rest.2)

/-- The offsets the spec demands for sizes `r1, r2, ...` starting at
`acc`: `acc, acc + r1, acc + r1 + r2, ...` — each range starts where
the previous one ended. -/
def runningOffsets (acc : Int) : List Int → List Int
  | [] => []
  | n :: ns => acc :: runningOffsets (acc + n) ns

/-- The two-file group of `TmpFileMgrTest.TestScratchLimit`: aggregate
limit 100, one fresh file on each of two devices, nothing allocated. -/
def scenarioGroup : FileGroup :=
  ⟨100, [newTmpFile 0, newTmpFile 1], 0, 0⟩

/-! ## Helper lemmas -/

/-- Erasing every entry with key `k` from an association list makes a
subsequent lookup of `k` fail. -/
theorem find?_filter_out_key (l : List (Nat × QTracker)) (k : Nat) :
    (l.filter (fun e => !(e.1 == k))).find? (fun e => e.1 == k) = none := by
  induction l with
  | nil => rfl
  | cons a l ih =>
    by_cases h : a.1 = k
    · simp [List.filter_cons, h, ih]
    · simp [List.filter_cons, h, List.find?, ih]

/-- `GetQueryMemTracker` on a registered id returns the registered
tracker and leaves the registry unchanged. -/
theorem getQuery_lookup_some (pm bl : Int) (st : QueryRegistry) (id : Nat)
    (t : QTracker) (h : lookupQuery st id = some t) :
    GetQueryMemTracker pm st id bl
      = (decide (bl ≠ -1) && decide (bl > pm), t, st) := by
  simp only [GetQueryMemTracker, h]

/-- `GetQueryMemTracker` on an unregistered id constructs a fresh
tracker with the requested limit and registers it. -/
theorem getQuery_lookup_none (pm bl : Int) (st : QueryRegistry) (id : Nat)
    (h : lookupQuery st id = none) :
    GetQueryMemTracker pm st id bl
      = (decide (bl ≠ -1) && decide (bl > pm),
          ⟨st.next_tracker_id, bl, id⟩,
          ⟨(id, ⟨st.next_tracker_id, bl, id⟩) :: st.request_to_mem_trackers,
            st.next_tracker_id + 1⟩) := by
  simp only [GetQueryMemTracker, h]

/-- One `FileGroup::AllocateSpace` call: the limit never changes; a
`ScratchLimitExceeded` outcome changes neither the used counter nor any
file; a successful outcome adds exactly `n` to the counter and implies
the limit check passed; an I/O failure leaves the counter unchanged. -/
theorem allocateSpace_step (g : FileGroup) (n : Int) :
    (g.AllocateSpace n).2.bytes_limit = g.bytes_limit ∧
    ((g.AllocateSpace n).1 = AllocStatus.scratchLimitExceeded →
      (g.AllocateSpace n).2.scratch_space_bytes_used = g.scratch_space_bytes_used ∧
      (g.AllocateSpace n).2.tmp_files = g.tmp_files) ∧
    (∀ i off, (g.AllocateSpace n).1 = AllocStatus.ok i off →
      (g.AllocateSpace n).2.scratch_space_bytes_used
          = g.scratch_space_bytes_used + n ∧
      (g.bytes_limit ≠ -1 → g.scratch_space_bytes_used + n ≤ g.bytes_limit)) ∧
    ((g.AllocateSpace n).1 = AllocStatus.ioError →
      (g.AllocateSpace n).2.scratch_space_bytes_used = g.scratch_space_bytes_used) := by
  unfold FileGroup.AllocateSpace
  by_cases h0 : g.tmp_files.length = 0
  · simp [h0]
  · simp only [h0, if_false]
    by_cases hc : g.bytes_limit ≠ -1 ∧
        g.scratch_space_bytes_used + n > g.bytes_limit
    · simp [hc]
    · simp only [hc, if_false]
      have hle : g.bytes_limit ≠ -1 →
          g.scratch_space_bytes_used + n ≤ g.bytes_limit := by
        intro hA
        by_contra hB
        exact hc ⟨hA, by omega⟩
      rcases hm : (g.tmp_files.getD
          (g.next_allocation_index % g.tmp_files.length)
          (newTmpFile 0)).AllocateSpace n with _ | ⟨off, f2⟩
      · simp [hm]
      · simp [hm]
        exact fun hA => hle hA

/-- The aggregate-limit invariant: starting from a group whose counter
respects its finite limit, any request sequence keeps the counter at
the initial value plus the bytes of the successful requests, never
above the limit. -/
theorem runGroupAllocs_used (reqs : List Int) : ∀ (g : FileGroup),
    g.bytes_limit ≠ -1 → g.scratch_space_bytes_used ≤ g.bytes_limit →
    (runGroupAllocs g reqs).scratch_space_bytes_used
        = g.scratch_space_bytes_used + allocatedBytes g reqs ∧
    (runGroupAllocs g reqs).scratch_space_bytes_used ≤ g.bytes_limit := by
  induction reqs with
  | nil =>
    intro g hl hu
    simp [runGroupAllocs, allocatedBytes, hu]
  | cons n ns ih =>
    intro g hl hu
    have step := allocateSpace_step g n
    rcases hPair : g.AllocateSpace n with ⟨st, g2⟩
    rw [hPair] at step
    obtain ⟨hLim, hScr, hOk, hIo⟩ := step
    simp only at hLim hScr hOk hIo
    have hl2 : g2.bytes_limit ≠ -1 := by rw [hLim]; exact hl
    cases st with
    | ok i off =>
      have h1 := hOk i off rfl
      have hu2 : g2.scratch_space_bytes_used ≤ g2.bytes_limit := by
        rw [hLim, h1.1]
        exact h1.2 hl
      have IH := ih g2 hl2 hu2
      constructor
      · simp only [runGroupAllocs, allocatedBytes, hPair]
        rw [IH.1, h1.1]
        ring
      · simp only [runGroupAllocs, hPair]
        rw [← hLim]
        exact IH.2
    | scratchLimitExceeded =>
      have h1 := hScr rfl
      have hu2 : g2.scratch_space_bytes_used ≤ g2.bytes_limit := by
        rw [hLim, h1.1]
        exact hu
      have IH := ih g2 hl2 hu2
      constructor
      · simp only [runGroupAllocs, allocatedBytes, hPair]
        rw [IH.1, h1.1]
      · simp only [runGroupAllocs, hPair]
        rw [← hLim]
        exact IH.2
    | ioError =>
      have h1 := hIo rfl
      have hu2 : g2.scratch_space_bytes_used ≤ g2.bytes_limit := by
        rw [hLim, h1]
        exact hu
      have IH := ih g2 hl2 hu2
      constructor
      · simp only [runGroupAllocs, allocatedBytes, hPair]
        rw [IH.1, h1]
      · simp only [runGroupAllocs, hPair]
        rw [← hLim]
        exact IH.2

/-- Per-file allocation: on a non-blacklisted file whose on-disk size
matches its high-water mark, a request sequence yields the running-sum
offsets and leaves mark and on-disk size at the initial mark plus the
total requested. -/
theorem runFileAllocs_spec (sizes : List Int) : ∀ (f : TmpFile),
    f.blacklisted = false → f.disk_size = f.bytes_allocated →
    (runFileAllocs f sizes).1 = runningOffsets f.bytes_allocated sizes ∧
    (runFileAllocs f sizes).2.bytes_allocated = f.bytes_allocated + sizes.sum ∧
    (runFileAllocs f sizes).2.disk_size = f.bytes_allocated + sizes.sum := by
  induction sizes with
  | nil =>
    intro f hb hd
    simp [runFileAllocs, runningOffsets, hd]
  | cons n ns ih =>
    intro f hb hd
    have hA : f.AllocateSpace n
        = some (f.bytes_allocated,
            { f with bytes_allocated := f.bytes_allocated + n,
                     disk_size := f.bytes_allocated + n }) := by
      simp [TmpFile.AllocateSpace, hb]
    have IH := ih { f with bytes_allocated := f.bytes_allocated + n,
                           disk_size := f.bytes_allocated + n } hb rfl
    simp only [runFileAllocs, hA, runningOffsets]
    refine ⟨?_, ?_, ?_⟩
    · rw [IH.1]
    · rw [IH.2.1]
      simp [List.sum_cons]
      ring
    · rw [IH.2.2]
      simp [List.sum_cons]
      ring

/-! ## Claim theorems -/

/-- Claim C1, counterexample: the claim "GcMemory(target) returns true
iff post-call consumption ≤ target" fails on the code.  On a tracker
with consumption 10 and no GC functions, `GcMemory 20` returns `false`
although post-call consumption (10) is ≤ 20: the source returns
`consumption() > max_consumption`, i.e. whether the target was still
missed, not whether it was achieved. -/
theorem gcMemory_cex :
    ¬ (((GcMemory ⟨10, []⟩ 20).1 = true) ↔
        (GcMemory ⟨10, []⟩ 20).2.consumption ≤ 20) := by
  decide

/-- Claim C1 (amended): for every tracker with non-negative consumption
and every target, `GcMemory(target)` returns true if and only if, after
the call, the tracker's consumption is still strictly greater than the
target — i.e. it returns whether the target was NOT achieved. -/
theorem gcMemory_true_iff_target_missed (t : GcTracker) (maxC : Int)
    (h : 0 ≤ t.consumption) :
    (GcMemory t maxC).1 = true ↔ maxC < (GcMemory t maxC).2.consumption := by
  unfold GcMemory
  by_cases h1 : maxC < 0
  · simp [h1]
    omega
  · by_cases h2 : t.consumption < maxC
    · simp [h1, h2]
      omega
    · simp [h1, h2]

/-- Claim C1, witness: the amended theorem applied to the tracker with
consumption 10 and target 20. -/
theorem gcMemory_true_iff_target_missed_witness :
    (0:Int) ≤ (GcTracker.mk 10 []).consumption ∧
    ((GcMemory ⟨10, []⟩ 20).1 = true ↔ 20 < (GcMemory ⟨10, []⟩ 20).2.consumption) :=
  ⟨by decide, gcMemory_true_iff_target_missed ⟨10, []⟩ 20 (by decide)⟩

/-- Claim C6: for every tracker, the `all_trackers_` list built by
`MemTracker::Init` is exactly the ancestor chain `[itself, parent,
grandparent, ...]` nearest-first, and `limit_trackers_` is exactly the
subsequence of that chain whose members have a finite limit.  (In this
functional model both lists are computed once from the construction
data, which is immutable, matching "fixed for the tracker's
lifetime".) -/
theorem memTrackerInit_chains (t : MemTrackerNode) :
    (memTrackerInit t).1 = ancestorChain t ∧
    (memTrackerInit t).2 = (ancestorChain t).filter MemTrackerNode.hasLimit := by
  induction t with
  | root l =>
    constructor
    · rfl
    · simp only [memTrackerInit, ancestorChain, List.filter_cons, List.filter_nil]
  | child l p ih =>
    constructor
    · simp [memTrackerInit, ancestorChain, ih.1]
    · simp only [memTrackerInit, ancestorChain, List.filter_cons]
      rcases hL : (MemTrackerNode.child l p).hasLimit <;> simp [hL, ih.2]

/-- Claim C4, counterexample: `ReleaseResources` is not idempotent.  On
a query state whose tracker is the only child of its parent, the first
call succeeds (erasing the tracker from the parent's child list and
invalidating the stored iterator), but the second call attempts to
erase the end iterator — undefined behaviour, modelled as failure — so
composing the call with itself differs from a single call. -/
theorem releaseResources_not_idempotent_cex :
    (ReleaseResources ⟨[7], some 0, false⟩).bind ReleaseResources
      ≠ ReleaseResources ⟨[7], some 0, false⟩ ∧
    ReleaseResources ⟨[7], some 0, false⟩ = some ⟨[], none, true⟩ ∧
    (ReleaseResources ⟨[7], some 0, false⟩).bind ReleaseResources = none := by
  decide

/-- Claim C4 (amended): `ReleaseResources` must be called exactly once:
after any successful call, a second call is an invalid operation (it
erases the already-invalidated child iterator from the parent's list),
not a harmless no-op. -/
theorem releaseResources_second_call_errors (qs qs2 : QueryStateRes)
    (h : ReleaseResources qs = some qs2) : ReleaseResources qs2 = none := by
  unfold ReleaseResources UnregisterFromParent at *
  cases hit : qs.child_tracker_it with
  | none => simp [hit] at h
  | some i =>
    by_cases hlt : i < qs.parent_child_trackers.length
    · simp [hit, hlt] at h
      subst h
      rfl
    · simp [hit, hlt] at h

/-- Claim C4, witness: the amended theorem applied after a first
successful release on a one-child parent list. -/
theorem releaseResources_second_call_errors_witness :
    ReleaseResources ⟨[7], some 0, false⟩ = some ⟨[], none, true⟩ ∧
    ReleaseResources ⟨[], none, true⟩ = none :=
  ⟨by decide,
    releaseResources_second_call_errors ⟨[7], some 0, false⟩ ⟨[], none, true⟩
      (by decide)⟩

/-- Claim C5: on a freshly constructed query state, whatever the first
`Prepare` call observes (process tracker over its limit or not), every
subsequent `Prepare` call returns exactly the first call's status with
the state unchanged, independently of what the process tracker looks
like at that later time — the first failure is cached and replayed, and
a first success makes all later calls return OK, in both cases without
re-executing the admission check. -/
theorem prepare_caches_first_outcome (qs : QueryStatePrep) (env1 env2 : Bool)
    (hp : qs.prepared = false) (hs : qs.prepare_status = Status.ok) :
    (qs.Prepare env1).2.Prepare env2 = qs.Prepare env1 := by
  unfold QueryStatePrep.Prepare
  cases env1 <;> simp [hp, hs, Status.isOk]

/-- Claim C5, witness: query 5, first call failing the admission check,
second call observing a healthy process tracker. -/
theorem prepare_caches_first_outcome_witness :
    ((⟨5, false, .ok⟩ : QueryStatePrep).Prepare true).2.Prepare false
      = (⟨5, false, .ok⟩ : QueryStatePrep).Prepare true :=
  prepare_caches_first_outcome ⟨5, false, .ok⟩ true false rfl rfl

/-- Claim C3, counterexample: with physical memory 100 and a configured
byte limit of 200 (strictly above physical memory), the tracker
installed by `GetQueryMemTracker` has limit 200 — the configured limit
itself, not a clamped value: the source only logs a warning and passes
`byte_limit` unchanged to the constructor. -/
theorem getQueryMemTracker_no_clamp_cex :
    (200 : Int) > 100 ∧
    (GetQueryMemTracker 100 ⟨[], 0⟩ 7 200).2.1.limit = 200 := by
  decide

/-- Claim C3 (amended): when a query's configured finite byte limit
exceeds physical memory, `GetQueryMemTracker` emits a warning but
installs the configured limit unchanged — no clamping occurs. -/
theorem getQueryMemTracker_warns_without_clamping (pm bl : Int) (st : QueryRegistry)
    (id : Nat) (h1 : bl ≠ -1) (h2 : bl > pm) (h3 : lookupQuery st id = none) :
    (GetQueryMemTracker pm st id bl).1 = true ∧
    (GetQueryMemTracker pm st id bl).2.1.limit = bl := by
  unfold GetQueryMemTracker
  simp [h3, h1, h2]

/-- Claim C3, witness: the amended theorem at physical memory 100,
byte limit 200, empty registry, query id 7. -/
theorem getQueryMemTracker_warns_without_clamping_witness :
    ((200 : Int) ≠ -1 ∧ (200 : Int) > 100 ∧ lookupQuery ⟨[], 0⟩ 7 = none) ∧
    (GetQueryMemTracker 100 ⟨[], 0⟩ 7 200).1 = true ∧
    (GetQueryMemTracker 100 ⟨[], 0⟩ 7 200).2.1.limit = 200 :=
  ⟨⟨by decide, by decide, by decide⟩,
    getQueryMemTracker_warns_without_clamping 100 200 ⟨[], 0⟩ 7
      (by decide) (by decide) (by decide)⟩

/-- Claim C9: after registering a tracker for a previously unregistered
query id, (1) every further `GetQueryMemTracker` call for that id —
with any limit/physical-memory arguments — returns the very same
tracker instance and leaves the registry unchanged; (2) the tracker's
destructor removes the registry entry for its query id; (3) a
`GetQueryMemTracker` call after destruction constructs a fresh tracker,
distinct from the destroyed instance. -/
theorem queryTracker_interning (st : QueryRegistry) (pm bl : Int) (id : Nat)
    (h : lookupQuery st id = none) :
    (∀ pm2 bl2,
      (GetQueryMemTracker pm2 (GetQueryMemTracker pm st id bl).2.2 id bl2).2.1
          = (GetQueryMemTracker pm st id bl).2.1 ∧
      (GetQueryMemTracker pm2 (GetQueryMemTracker pm st id bl).2.2 id bl2).2.2
          = (GetQueryMemTracker pm st id bl).2.2) ∧
    lookupQuery (MemTrackerDtor (GetQueryMemTracker pm st id bl).2.2
        (GetQueryMemTracker pm st id bl).2.1) id = none ∧
    (∀ pm3 bl3,
      (GetQueryMemTracker pm3
          (MemTrackerDtor (GetQueryMemTracker pm st id bl).2.2
            (GetQueryMemTracker pm st id bl).2.1) id bl3).2.1
        ≠ (GetQueryMemTracker pm st id bl).2.1) := by
  have hGet := getQuery_lookup_none pm bl st id h
  have hLook1 : lookupQuery (GetQueryMemTracker pm st id bl).2.2 id
      = some (GetQueryMemTracker pm st id bl).2.1 := by
    rw [hGet]
    simp [lookupQuery, List.find?]
  have hDtor : lookupQuery (MemTrackerDtor (GetQueryMemTracker pm st id bl).2.2
      (GetQueryMemTracker pm st id bl).2.1) id = none := by
    rw [hGet]
    simp only [MemTrackerDtor, lookupQuery, List.filter_cons]
    simp [find?_filter_out_key]
  refine ⟨?_, hDtor, ?_⟩
  · intro pm2 bl2
    rw [getQuery_lookup_some pm2 bl2 _ id _ hLook1]
    exact ⟨rfl, rfl⟩
  · intro pm3 bl3 hEq
    rw [getQuery_lookup_none pm3 bl3 _ id hDtor, hGet] at hEq
    have := congrArg QTracker.tracker_id hEq
    simp [MemTrackerDtor] at this

/-- Claim C9, witness: the interning theorem at query id 7, limit 50,
physical memory 100, starting from the empty registry. -/
theorem queryTracker_interning_witness :
    lookupQuery ⟨[], 0⟩ 7 = none ∧
    ((∀ pm2 bl2,
      (GetQueryMemTracker pm2 (GetQueryMemTracker 100 ⟨[], 0⟩ 7 50).2.2 7 bl2).2.1
          = (GetQueryMemTracker 100 ⟨[], 0⟩ 7 50).2.1 ∧
      (GetQueryMemTracker pm2 (GetQueryMemTracker 100 ⟨[], 0⟩ 7 50).2.2 7 bl2).2.2
          = (GetQueryMemTracker 100 ⟨[], 0⟩ 7 50).2.2) ∧
    lookupQuery (MemTrackerDtor (GetQueryMemTracker 100 ⟨[], 0⟩ 7 50).2.2
        (GetQueryMemTracker 100 ⟨[], 0⟩ 7 50).2.1) 7 = none ∧
    (∀ pm3 bl3,
      (GetQueryMemTracker pm3
          (MemTrackerDtor (GetQueryMemTracker 100 ⟨[], 0⟩ 7 50).2.2
            (GetQueryMemTracker 100 ⟨[], 0⟩ 7 50).2.1) 7 bl3).2.1
        ≠ (GetQueryMemTracker 100 ⟨[], 0⟩ 7 50).2.1)) :=
  ⟨by decide, queryTracker_interning ⟨[], 0⟩ 100 50 7 (by decide)⟩

/-- Claim C10: when no tracker is registered for a pool name,
`GetRequestPoolMemTracker` with a null parent returns null and leaves
the registry untouched (lookup-only mode), while with a non-null parent
it constructs and registers a new pool tracker. -/
theorem getRequestPoolMemTracker_lookup_only (st : PoolRegistry) (pool : String)
    (h : lookupPool st pool = none) :
    GetRequestPoolMemTracker st pool none = (none, st) ∧
    (∀ p, GetRequestPoolMemTracker st pool (some p)
        = (some st.next_tracker_id,
            ⟨(pool, st.next_tracker_id) :: st.pool_to_mem_trackers,
              st.next_tracker_id + 1⟩)) := by
  unfold GetRequestPoolMemTracker
  simp [h]

/-- Claim C10, witness: the empty registry and the pool name
"default". -/
theorem getRequestPoolMemTracker_lookup_only_witness :
    lookupPool ⟨[], 0⟩ "default" = none ∧
    GetRequestPoolMemTracker ⟨[], 0⟩ "default" none = (none, ⟨[], 0⟩) ∧
    (∀ p, GetRequestPoolMemTracker ⟨[], 0⟩ "default" (some p)
        = (some 0, ⟨[("default", 0)], 1⟩)) :=
  ⟨by decide,
    (getRequestPoolMemTracker_lookup_only ⟨[], 0⟩ "default" (by decide)).1,
    (getRequestPoolMemTracker_lookup_only ⟨[], 0⟩ "default" (by decide)).2⟩

/-- Claim C2: for a file group with finite aggregate limit whose
counter starts within the limit, (1) after any request sequence the
counter equals the initial value plus the sum of the successfully
allocated bytes and never exceeds the limit; (2) a request rejected
with `ScratchLimitExceeded` changes neither the counter nor any file
(no partial allocation); (3) the concrete scenario with limit 100 and
two files: allocating 25 succeeds at offset 0, a request of 76 then
fails with `ScratchLimitExceeded` leaving the counter at 25 and the
files untouched, a request of 75 then succeeds bringing the aggregate
to 100, and a further request of 1 fails. -/
theorem fileGroup_scratch_limit (g : FileGroup) (reqs : List Int)
    (hl : g.bytes_limit ≠ -1) (hu : g.scratch_space_bytes_used ≤ g.bytes_limit) :
    (runGroupAllocs g reqs).scratch_space_bytes_used
        = g.scratch_space_bytes_used + allocatedBytes g reqs ∧
    (runGroupAllocs g reqs).scratch_space_bytes_used ≤ g.bytes_limit ∧
    (∀ (g2 : FileGroup) (n : Int),
      (g2.AllocateSpace n).1 = AllocStatus.scratchLimitExceeded →
        (g2.AllocateSpace n).2.scratch_space_bytes_used
            = g2.scratch_space_bytes_used ∧
        (g2.AllocateSpace n).2.tmp_files = g2.tmp_files) ∧
    ((scenarioGroup.AllocateSpace 25).1 = AllocStatus.ok 0 0 ∧
      ((scenarioGroup.AllocateSpace 25).2.AllocateSpace 76).1
          = AllocStatus.scratchLimitExceeded ∧
      ((scenarioGroup.AllocateSpace 25).2.AllocateSpace 76).2.scratch_space_bytes_used
          = 25 ∧
      ((scenarioGroup.AllocateSpace 25).2.AllocateSpace 76).2.tmp_files
          = (scenarioGroup.AllocateSpace 25).2.tmp_files ∧
      (((scenarioGroup.AllocateSpace 25).2.AllocateSpace 76).2.AllocateSpace 75).1
          = AllocStatus.ok 0 25 ∧
      (((scenarioGroup.AllocateSpace 25).2.AllocateSpace 76).2.AllocateSpace
          75).2.scratch_space_bytes_used = 100 ∧
      ((((scenarioGroup.AllocateSpace 25).2.AllocateSpace 76).2.AllocateSpace
          75).2.AllocateSpace 1).1 = AllocStatus.scratchLimitExceeded) :=
  ⟨(runGroupAllocs_used reqs g hl hu).1,
    (runGroupAllocs_used reqs g hl hu).2,
    fun g2 n h => (allocateSpace_step g2 n).2.1 h,
    by decide⟩

/-- Claim C2, witness: the aggregate-limit theorem at the
`TestScratchLimit` group with the request sequence 25, 76, 75, 1. -/
theorem fileGroup_scratch_limit_witness :
    ((scenarioGroup.bytes_limit ≠ -1 ∧
      scenarioGroup.scratch_space_bytes_used ≤ scenarioGroup.bytes_limit) ∧
    (runGroupAllocs scenarioGroup [25, 76, 75, 1]).scratch_space_bytes_used
        = scenarioGroup.scratch_space_bytes_used
            + allocatedBytes scenarioGroup [25, 76, 75, 1]) ∧
    (runGroupAllocs scenarioGroup [25, 76, 75, 1]).scratch_space_bytes_used
        ≤ scenarioGroup.bytes_limit :=
  ⟨⟨⟨by decide, by decide⟩,
    (fileGroup_scratch_limit scenarioGroup [25, 76, 75, 1]
      (by decide) (by decide)).1⟩,
    (fileGroup_scratch_limit scenarioGroup [25, 76, 75, 1]
      (by decide) (by decide)).2.1⟩

/-- Claim C7: on a fresh temporary file, a sequence of allocations of
sizes `r1, ..., rN` is handed the offsets `0, r1, r1+r2, ...` — each
allocation starts exactly where the previous one ended, with no gaps
and no overlap — and after each call (every prefix of the sequence) the
on-disk size equals the sum of the sizes allocated so far. -/
theorem tmpFile_alloc_ranges (d : Nat) (sizes : List Int) :
    (runFileAllocs (newTmpFile d) sizes).1 = runningOffsets 0 sizes ∧
    ∀ k, (runFileAllocs (newTmpFile d) (sizes.take k)).2.disk_size
        = (sizes.take k).sum := by
  have h1 := runFileAllocs_spec sizes (newTmpFile d) rfl rfl
  refine ⟨by simpa [newTmpFile] using h1.1, fun k => ?_⟩
  have h2 := runFileAllocs_spec (sizes.take k) (newTmpFile d) rfl rfl
  simpa [newTmpFile] using h2.2.2

/-- Claim C8: `ReportIOError` on a (non-blacklisted) file records the
error flag but is otherwise observational: the file is still not
blacklisted, a subsequent `AllocateSpace` on the very same file still
succeeds (returning the file's current high-water mark as offset), the
manager's active-device count is unchanged, and a new file can still be
created on the same device. -/
theorem reportIOError_observational (m : TmpFileMgr) (f : TmpFile) (n : Int)
    (hb : f.blacklisted = false) (hd : f.device_id ∈ m.active_tmp_devices) :
    (f.ReportIOError).reported_error = true ∧
    (f.ReportIOError).blacklisted = false ∧
    ((f.ReportIOError).AllocateSpace n).isSome = true ∧
    ((f.ReportIOError).AllocateSpace n).map Prod.fst = some f.bytes_allocated ∧
    (reportIOErrorOnFile m f).1.num_active_tmp_devices
        = m.num_active_tmp_devices ∧
    m.NewFile f.device_id = some (newTmpFile f.device_id) := by
  have hb2 : (f.ReportIOError).blacklisted = false := hb
  refine ⟨rfl, hb2, ?_, ?_, rfl, ?_⟩
  · simp [TmpFile.AllocateSpace, TmpFile.ReportIOError, hb]
  · simp [TmpFile.AllocateSpace, TmpFile.ReportIOError, hb]
  · simp [TmpFileMgr.NewFile, hd]

/-- Claim C8, witness: the `TestReportError` setting — two active
devices, the file on device 1 reports an error, then allocates 128
bytes. -/
theorem reportIOError_observational_witness :
    (((newTmpFile 1).blacklisted = false) ∧
      (newTmpFile 1).device_id ∈ (TmpFileMgr.mk [0, 1]).active_tmp_devices) ∧
    ((newTmpFile 1).ReportIOError).reported_error = true ∧
    ((newTmpFile 1).ReportIOError).blacklisted = false ∧
    (((newTmpFile 1).ReportIOError).AllocateSpace 128).isSome = true ∧
    (((newTmpFile 1).ReportIOError).AllocateSpace 128).map Prod.fst
        = some (newTmpFile 1).bytes_allocated ∧
    (reportIOErrorOnFile ⟨[0, 1]⟩ (newTmpFile 1)).1.num_active_tmp_devices
        = (TmpFileMgr.mk [0, 1]).num_active_tmp_devices ∧
    (TmpFileMgr.mk [0, 1]).NewFile (newTmpFile 1).device_id
        = some (newTmpFile (newTmpFile 1).device_id) :=
  ⟨⟨by decide, by decide⟩,
    reportIOError_observational ⟨[0, 1]⟩ (newTmpFile 1) 128 (by decide) (by decide)⟩

end Impala
